import Mathlib

/-!
Shallow embedding of the sendpulse-client repository's API client core.

Two variants exist in the source:
* the TypeScript class `SendPulseClient` (token with expiry, lazy refresh) —
  embedded in namespace `SendPulse`;
* the legacy CommonJS module `api/sendpulse.js` (module-global token string,
  no expiry tracking) — embedded in namespace `Legacy`.

JavaScript numeric quirks that matter to the token logic (`undefined - 60`
is `NaN`; every ordered comparison against `NaN` is `false`) are modelled by
the type `JsNum`.  Time is an explicit `now : Int` parameter (milliseconds,
as `Date.now()` returns).  The HTTP transport (axios) is an explicit oracle
`Transport`; each operation returns its result, the token state after the
call, and the ordered list of HTTP requests it issued.
-/

namespace SendPulse

/-- A JavaScript number restricted to the values the token logic can
produce: either a genuine (integral) number or `NaN`.  `Date.now()` and
`expires_in` are integers; `NaN` arises from arithmetic on `undefined`. -/
inductive JsNum where
  | nan : JsNum
  | int : Int → JsNum
deriving DecidableEq, Repr

/-- JS `+` on numbers: `NaN` is absorbing. -/
def JsNum.add : JsNum → JsNum → JsNum
  | .int a, .int b => .int (a + b)
  | _, _ => .nan

/-- JS `-` on numbers: `NaN` is absorbing. -/
def JsNum.sub : JsNum → JsNum → JsNum
  | .int a, .int b => .int (a - b)
  | _, _ => .nan

/-- JS `*` on numbers: `NaN` is absorbing. -/
def JsNum.mul : JsNum → JsNum → JsNum
  | .int a, .int b => .int (a * b)
  | _, _ => .nan

/-- JS `>=`: any comparison involving `NaN` is `false`. -/
def JsNum.ge : JsNum → JsNum → Bool
  | .int a, .int b => decide (a ≥ b)
  | _, _ => false

/-- JS `<`: any comparison involving `NaN` is `false`. -/
def JsNum.lt : JsNum → JsNum → Bool
  | .int a, .int b => decide (a < b)
  | _, _ => false

/-- Coerce a possibly-absent (`undefined`) integer field to a JS number:
`undefined` used in arithmetic behaves as `NaN`. -/
def jsOfOpt : Option Int → JsNum
  | some n => .int n
  | none => .nan

/-- JS string coercion of a possibly-`undefined` string, as it happens in
`'Bearer ' + this.token.access_token`. -/
def jsStr : Option String → String
  | some s => s
  | none => "undefined"

/-- JS truthiness of a possibly-`undefined` string: `undefined` and the
empty string are falsy. -/
def jsTruthy : Option String → Bool
  | none => false
  | some s => decide (s ≠ "")

/-- The `TokenData` interface of the TypeScript source: the stored bearer
string (possibly `undefined` if the endpoint omitted it) and the absolute
expiry instant in milliseconds (possibly `NaN`). -/
structure TokenData where
  access_token : Option String
  expires_at : JsNum
deriving DecidableEq, Repr

/-- Request payloads used by the client are flat string-to-string objects
(insertion order preserved, as JS object keys are). -/
abbrev Payload := List (String × String)

/-- `JSON.stringify` escaping of one character inside a string literal. -/
def jsonEscapeChar (ch : Char) : String :=
  if ch = '"' then "\\\""
  else if ch = '\\' then "\\\\"
  else if ch = '\n' then "\\n"
  else if ch = '\r' then "\\r"
  else if ch = '\t' then "\\t"
  else if ch = '\x08' then "\\b"
  else if ch = '\x0c' then "\\f"
  else if ch.toNat < 32 then
    "\\u00" ++ String.singleton ("0123456789abcdef".data.getD (ch.toNat / 16) '0')
      ++ String.singleton ("0123456789abcdef".data.getD (ch.toNat % 16) '0')
  else String.singleton ch

/-- `JSON.stringify` of a string value. -/
def jsonQuote (s : String) : String :=
  "\"" ++ String.join (s.data.map jsonEscapeChar) ++ "\""

/-- `JSON.stringify` of an array of strings: bracketed, comma-separated,
order preserved. -/
def jsonStringifyStrings (xs : List String) : String :=
  "[" ++ String.intercalate "," (xs.map jsonQuote) ++ "]"

/-- `JSON.stringify` of a flat string-valued object (keys in insertion
order). -/
def jsonStringifyObj (data : Payload) : String :=
  "\x7b" ++ String.intercalate ","
      (data.map fun kv => jsonQuote kv.1 ++ ":" ++ jsonQuote kv.2) ++ "\x7d"

/-- An outbound HTTP request as handed to the transport.  The endpoint
`path` is kept alongside the resolved `url` so properties can talk about
the endpoint directly. -/
structure HttpRequest where
  method : String
  path : String
  url : String
  data : Payload
  headers : List (String × String)
deriving DecidableEq, Repr

/-- The decoded JSON body of a transport response, restricted to the two
fields the client core ever reads (`access_token`, `expires_in`); either
may be absent (`undefined`). -/
structure RespBody where
  access_token : Option String := none
  expires_in : Option Int := none
deriving DecidableEq, Repr

/-- Errors surfaced by the client: `error` is a thrown `Error(msg)`
(validation or unknown-method), `apiRequestError` a transport/HTTP-layer
failure, `typeError` a JS `TypeError`. -/
inductive JsError where
  | error (msg : String)
  | apiRequestError (status : Int) (body : String)
  | typeError (msg : String)
deriving DecidableEq, Repr

/-- The HTTP transport oracle standing for `axios.request`: a function from
the request descriptor to either the decoded response body or a failure. -/
abbrev Transport := HttpRequest → Except JsError RespBody

/-- URL resolution `new URL(path, apiUrl).href` for a relative path against
a host-only base, as the client uses it. -/
def resolveUrl (apiUrl path : String) : String := apiUrl ++ "/" ++ path

/-- The constructor-held configuration of `SendPulseClient`. -/
structure SendPulseClient where
  clientId : String
  clientSecret : String := ""
  apiUrl : String := "https://api.sendpulse.com"
deriving DecidableEq, Repr

/-- Headers every request carries: content-type JSON and the byte length of
the JSON-encoded payload. -/
def baseHeaders (data : Payload) : List (String × String) :=
  [("Content-Type", "application/json"),
   ("Content-Length", toString (jsonStringifyObj data).utf8ByteSize)]

/-- Build the request `sendRequest` issues, with an optional Authorization
header value appended after the base headers. -/
def mainRequest (c : SendPulseClient) (path method : String) (data : Payload)
    (auth : Option String) : HttpRequest :=
  { method := method, path := path, url := resolveUrl c.apiUrl path,
    data := data,
    headers := baseHeaders data ++
      (match auth with
       | some a => [("Authorization", a)]
       | none => []) }

/-- The client-credentials payload `getToken` sends. -/
def tokenPayload (c : SendPulseClient) : Payload :=
  [("grant_type", "client_credentials"),
   ("client_id", c.clientId),
   ("client_secret", c.clientSecret)]

/-- The unauthenticated request `getToken` issues through `sendRequest`
(path `oauth/access_token`, method POST, `useToken = false`). -/
def tokenRequest (c : SendPulseClient) : HttpRequest :=
  mainRequest c "oauth/access_token" "POST" (tokenPayload c) none

/-- The token `getToken` stores at time `now` from response body `d`:
the returned bearer string and `Date.now() + (expires_in - 60) * 1000`
(`NaN` when `expires_in` is absent). -/
def mkToken (now : Int) (d : RespBody) : TokenData :=
  { access_token := d.access_token,
    expires_at := (JsNum.int now).add
      (((jsOfOpt d.expires_in).sub (.int 60)).mul (.int 1000)) }

/-- The validity check at the top of `sendRequest`:
`!this.token || Date.now() >= this.token.expires_at`. -/
def tokenNeedsFetch (now : Int) : Option TokenData → Bool
  | none => true
  | some t => (JsNum.int now).ge t.expires_at

/-- `SendPulseClient.getToken`: one unauthenticated POST to the token
endpoint; on success replaces the held token with `mkToken now d`; on
failure the state is untouched and the error propagates.  Returns the
outcome, the token state after the call, and the issued requests. -/
def getToken (c : SendPulseClient) (tr : Transport) (now : Int)
    (tok : Option TokenData) :
    Except JsError TokenData × Option TokenData × List HttpRequest :=
  match tr (tokenRequest c) with
  | .error e => (.error e, tok, [tokenRequest c])
  | .ok d => (.ok (mkToken now d), some (mkToken now d), [tokenRequest c])

/-- `SendPulseClient.sendRequest`: if `useToken` and the held token is
absent or expired, run `getToken` first (propagating its failure); then
issue one HTTP request carrying, when authorized, the header
`Authorization: Bearer ` + the currently held token's bearer string. -/
def sendRequest (c : SendPulseClient) (tr : Transport) (now : Int)
    (tok : Option TokenData) (path method : String) (data : Payload)
    (useToken : Bool) :
    Except JsError RespBody × Option TokenData × List HttpRequest :=
  if useToken then
    if tokenNeedsFetch now tok then
      match getToken c tr now tok with
      | (.error e, tok1, reqs) => (.error e, tok1, reqs)
      | (.ok newTok, tok1, reqs) =>
        let req := mainRequest c path method data
          (some ("Bearer " ++ jsStr newTok.access_token))
        (tr req, tok1, reqs ++ [req])
    else
      match tok with
      | none =>
        (.error (.typeError "Cannot read properties of undefined"), tok, [])
      | some t =>
        let req := mainRequest c path method data
          (some ("Bearer " ++ jsStr t.access_token))
        (tr req, tok, [req])
  else
    let req := mainRequest c path method data none
    (tr req, tok, [req])

/-- `SendPulseClient.listAddressBooks`: `GET addressbooks`, authorized. -/
def listAddressBooks (c : SendPulseClient) (tr : Transport) (now : Int)
    (tok : Option TokenData) :
    Except JsError RespBody × Option TokenData × List HttpRequest :=
  sendRequest c tr now tok "addressbooks" "GET" [] true

/-- `SendPulseClient.createAddressBook`: throws `Error('Empty book name')`
when the argument is `undefined`, otherwise dispatches
`POST addressbooks` with `{ name }`, authorized. -/
def createAddressBook (c : SendPulseClient) (tr : Transport) (now : Int)
    (tok : Option TokenData) (book_name : Option String) :
    Except JsError RespBody × Option TokenData × List HttpRequest :=
  match book_name with
  | none => (.error (.error "Empty book name"), tok, [])
  | some name => sendRequest c tr now tok "addressbooks" "POST"
      [("name", name)] true

/-- The `phones` argument of `smsAddPhones`: a string array, a single
string, or `undefined`. -/
inductive PhonesArg where
  | arr (xs : List String)
  | str (s : String)
  | undef
deriving DecidableEq, Repr

/-- `SendPulseClient.smsAddPhones`: throws on `undefined`; JSON-encodes a
non-empty array (or a singleton of a lone string) into the `phones` field;
appends `comment` when given; dispatches `POST sms/black_list/add`. -/
def smsAddPhones (c : SendPulseClient) (tr : Transport) (now : Int)
    (tok : Option TokenData) (phones : PhonesArg)
    (comment : Option String) :
    Except JsError RespBody × Option TokenData × List HttpRequest :=
  match phones with
  | .undef => (.error (.error "Empty phones"), tok, [])
  | .arr xs =>
    sendRequest c tr now tok "sms/black_list/add" "POST"
      ((if xs.length ≠ 0 then [("phones", jsonStringifyStrings xs)] else []) ++
        (match comment with
         | some cm => [("comment", cm)]
         | none => [])) true
  | .str s =>
    sendRequest c tr now tok "sms/black_list/add" "POST"
      ([("phones", jsonStringifyStrings [s])] ++
        (match comment with
         | some cm => [("comment", cm)]
         | none => [])) true

/-- The fixed verb set of the raw-dispatch escape hatch. -/
def allowedMethods : List String := ["POST", "GET", "DELETE", "PUT", "PATCH"]

/-- `SendPulseClient.sendRequestRaw`: throws `Error('Unknown method: ...')`
for a verb outside the fixed set, otherwise forwards to `sendRequest` with
`useToken = true`. -/
def sendRequestRaw (c : SendPulseClient) (tr : Transport) (now : Int)
    (tok : Option TokenData) (path method : String) (data : Payload) :
    Except JsError RespBody × Option TokenData × List HttpRequest :=
  if allowedMethods.contains method then
    sendRequest c tr now tok path method data true
  else
    (.error (.error ("Unknown method: " ++ method)), tok, [])

/-- A sequential authorized call: the time it is issued at and its
request parameters. -/
structure AuthCall where
  time : Int
  path : String
  method : String
  data : Payload
deriving DecidableEq, Repr

/-- Run a list of authorized `sendRequest` calls sequentially (each
completes before the next starts), threading the token state and
concatenating the issued-request traces. -/
def runCalls (c : SendPulseClient) (tr : Transport) (tok : Option TokenData) :
    List AuthCall → Option TokenData × List HttpRequest
  | [] => (tok, [])
  | call :: rest =>
    let r := sendRequest c tr call.time tok call.path call.method call.data true
    let r2 := runCalls c tr r.2.1 rest
    (r2.1, r.2.2 ++ r2.2)

/-- Number of token-endpoint fetch requests in a trace. -/
def fetchCount (reqs : List HttpRequest) : Nat :=
  (reqs.filter fun r => r.path = "oauth/access_token").length

end SendPulse

namespace Legacy

open SendPulse

/-- The fixed base URL of the legacy module. -/
def API_URL : String := "https://api.sendpulse.com"

/-- Legacy `sendRequest`: the module-global `TOKEN` string (initially
empty) is attached as a bearer header only when `useToken` holds and the
string is non-empty; the URL is `API_URL + '/' + path`.  The function never
mutates `TOKEN`, so only the result and trace are returned. -/
def sendRequest (TOKEN : String) (tr : Transport) (path method : String)
    (data : Payload) (useToken : Bool) :
    Except JsError RespBody × List HttpRequest :=
  let req : HttpRequest :=
    { method := method, path := path, url := API_URL ++ "/" ++ path,
      data := data,
      headers := baseHeaders data ++
        (if useToken ∧ TOKEN.length ≠ 0
         then [("Authorization", "Bearer " ++ TOKEN)] else []) }
  (tr req, [req])

/-- Legacy `createAddressBook`: throws `Error('Empty book name')` when the
argument is `undefined` or has zero length, otherwise dispatches
`POST addressbooks` with `{ bookName }`, authorized. -/
def createAddressBook (TOKEN : String) (tr : Transport)
    (bookName : Option String) :
    Except JsError RespBody × List HttpRequest :=
  match bookName with
  | none => (.error (.error "Empty book name"), [])
  | some s =>
    if s.length = 0 then (.error (.error "Empty book name"), [])
    else sendRequest TOKEN tr "addressbooks" "POST" [("bookName", s)] true

/-- Legacy `getToken`: one unauthenticated POST of the client-credentials
grant; on success the new global token string is the returned
`access_token` (coerced from `undefined` as JS string concatenation later
would), on failure the error propagates and `TOKEN` is untouched. -/
def getToken (API_USER_ID API_SECRET TOKEN : String) (tr : Transport) :
    Except JsError String × List HttpRequest :=
  let r := sendRequest TOKEN tr "oauth/access_token" "POST"
    [("grant_type", "client_credentials"),
     ("client_id", API_USER_ID),
     ("client_secret", API_SECRET)] false
  match r.1 with
  | .error e => (.error e, r.2)
  | .ok d => (.ok (jsStr d.access_token), r.2)

/-- Legacy `getBalance`: the conditional
`currency ? 'balance' : 'balance/' + currency.toUpperCase()` sends truthy
currencies to the plain `balance` path and evaluates
`currency.toUpperCase()` — a `TypeError` on `undefined` — otherwise. -/
def getBalance (TOKEN : String) (tr : Transport) (currency : Option String) :
    Except JsError RespBody × List HttpRequest :=
  if jsTruthy currency then
    sendRequest TOKEN tr "balance" "GET" [] true
  else
    match currency with
    | none =>
      (.error (.typeError
        "Cannot read properties of undefined (reading toUpperCase)"), [])
    | some s =>
      sendRequest TOKEN tr ("balance/" ++ s.toUpper) "GET" [] true

/-- Legacy `sendRawRequest`: throws `Error('Unknown method: ...')` for a
verb outside the fixed set, otherwise forwards to `sendRequest` with
`useToken = true`. -/
def sendRawRequest (TOKEN : String) (tr : Transport) (path method : String)
    (data : Payload) :
    Except JsError RespBody × List HttpRequest :=
  if allowedMethods.contains method then
    sendRequest TOKEN tr path method data true
  else
    (.error (.error ("Unknown method: " ++ method)), [])

end Legacy

namespace SendPulse

/-! ### Concrete instances used by witnesses and counterexamples -/

/-- A sample client configuration (`id "abc"`, secret `"xyz"`). -/
def c0 : SendPulseClient := { clientId := "abc", clientSecret := "xyz" }

/-- A transport whose token endpoint returns bearer `T1` with
`expires_in = 3600` and answers every other request with an empty body. -/
def tr3600 : Transport := fun req =>
  if req.path = "oauth/access_token" then
    .ok { access_token := some "T1", expires_in := some 3600 }
  else .ok {}

/-- A transport whose token endpoint returns bearer `T1` with
`expires_in = 60` (exactly the safety margin). -/
def tr60 : Transport := fun req =>
  if req.path = "oauth/access_token" then
    .ok { access_token := some "T1", expires_in := some 60 }
  else .ok {}

/-- A transport whose token endpoint returns bearer `T9` with the
`expires_in` field omitted. -/
def trNoExp : Transport := fun req =>
  if req.path = "oauth/access_token" then
    .ok { access_token := some "T9" }
  else .ok {}

/-- A transport that fails every request with an HTTP 500. -/
def trFail : Transport := fun _ => .error (.apiRequestError 500 "boom")

/-! ### Helper lemmas about the dispatch path -/

/-- With a held token the validity check accepts, `sendRequest` issues
exactly the one authorized main request and leaves the token alone. -/
theorem sendRequest_validToken (c : SendPulseClient) (tr : Transport)
    (now : Int) (t : TokenData) (path method : String) (data : Payload)
    (h : tokenNeedsFetch now (some t) = false) :
    sendRequest c tr now (some t) path method data true =
      (tr (mainRequest c path method data
            (some ("Bearer " ++ jsStr t.access_token))),
       some t,
       [mainRequest c path method data
         (some ("Bearer " ++ jsStr t.access_token))]) := by
  simp [sendRequest, h]

/-- With an absent or expired token and a successful fetch, `sendRequest`
first issues the token request, replaces the token by `mkToken now d`, and
then issues the main request bearing the fresh token. -/
theorem sendRequest_fetch_ok (c : SendPulseClient) (tr : Transport)
    (now : Int) (tok : Option TokenData) (path method : String)
    (data : Payload) (d : RespBody)
    (h : tokenNeedsFetch now tok = true)
    (hd : tr (tokenRequest c) = .ok d) :
    sendRequest c tr now tok path method data true =
      (tr (mainRequest c path method data
            (some ("Bearer " ++ jsStr (mkToken now d).access_token))),
       some (mkToken now d),
       [tokenRequest c,
        mainRequest c path method data
          (some ("Bearer " ++ jsStr (mkToken now d).access_token))]) := by
  simp [sendRequest, h, getToken, hd]

/-- With an absent or expired token and a failing fetch, `sendRequest`
propagates the fetch error, leaves the token untouched, and issues only
the one token request. -/
theorem sendRequest_fetch_error (c : SendPulseClient) (tr : Transport)
    (now : Int) (tok : Option TokenData) (path method : String)
    (data : Payload) (e : JsError)
    (h : tokenNeedsFetch now tok = true)
    (he : tr (tokenRequest c) = .error e) :
    sendRequest c tr now tok path method data true =
      (.error e, tok, [tokenRequest c]) := by
  simp [sendRequest, h, getToken, he]

/-- Whenever the validity check demands a fetch, the token request is the
first request the call issues. -/
theorem sendRequest_fetch_first (c : SendPulseClient) (tr : Transport)
    (now : Int) (tok : Option TokenData) (path method : String)
    (data : Payload)
    (h : tokenNeedsFetch now tok = true) :
    ((sendRequest c tr now tok path method data true).2.2).head? =
      some (tokenRequest c) := by
  rcases he : tr (tokenRequest c) with e | d
  · rw [sendRequest_fetch_error c tr now tok path method data e h he]
    rfl
  · rw [sendRequest_fetch_ok c tr now tok path method data d h he]
    rfl

/-- The path of the fetch request is the token endpoint. -/
theorem tokenRequest_path (c : SendPulseClient) :
    (tokenRequest c).path = "oauth/access_token" := rfl

/-- The stored bearer string is the one the fetch response carried. -/
theorem mkToken_access_token (now : Int) (d : RespBody) :
    (mkToken now d).access_token = d.access_token := rfl

/-- Every non-token-endpoint request issued by an authorized
`sendRequest` call carries exactly the caller's payload and method. -/
theorem sendRequest_main_of_mem (c : SendPulseClient) (tr : Transport)
    (now : Int) (tok : Option TokenData) (path method : String)
    (data : Payload) (r : HttpRequest)
    (hr : r ∈ (sendRequest c tr now tok path method data true).2.2)
    (hp : r.path ≠ "oauth/access_token") :
    r.data = data ∧ r.method = method ∧ r.path = path := by
  rcases h : tokenNeedsFetch now tok with _ | _
  · match tok, h with
    | some t, h =>
      rw [sendRequest_validToken c tr now t path method data h] at hr
      simp only [List.mem_singleton] at hr
      subst hr
      exact ⟨rfl, rfl, rfl⟩
  · rcases he : tr (tokenRequest c) with e | d
    · rw [sendRequest_fetch_error c tr now tok path method data e h he] at hr
      simp only [List.mem_singleton] at hr
      subst hr
      exact absurd (tokenRequest_path c) hp
    · rw [sendRequest_fetch_ok c tr now tok path method data d h he] at hr
      rcases List.mem_cons.mp hr with h1 | h1
      · subst h1
        exact absurd (tokenRequest_path c) hp
      · simp only [List.mem_singleton] at h1
        subst h1
        exact ⟨rfl, rfl, rfl⟩

/-- A run of sequential authorized calls whose times all pass the
validity check issues exactly one main request per call and never touches
the token. -/
theorem runCalls_validToken (c : SendPulseClient) (tr : Transport)
    (t : TokenData) (calls : List AuthCall)
    (hv : ∀ call ∈ calls, tokenNeedsFetch call.time (some t) = false) :
    runCalls c tr (some t) calls =
      (some t, calls.map fun call =>
        mainRequest c call.path call.method call.data
          (some ("Bearer " ++ jsStr t.access_token))) := by
  induction calls with
  | nil => rfl
  | cons call rest ih =>
    have h1 := hv call (List.mem_cons_self call rest)
    have ihh := ih fun c2 hc2 => hv c2 (List.mem_cons_of_mem call hc2)
    simp [runCalls, sendRequest_validToken c tr call.time t call.path
      call.method call.data h1, ihh]

/-! ### Claim theorems -/

/-- C2: a successful token fetch at time `t` (ms) whose response reports
`expires_in = N` seconds stores the bearer with expiry
`t + (N - 60) * 1000` ms — the instant `t + (N − 60)` seconds; the
validity check at `t + (N − 61)` seconds still finds the token valid (no
refetch is demanded) and the check at `t + (N − 59)` seconds finds it
expired (a refetch is demanded). -/
theorem token_expiry_math (c : SendPulseClient) (tr : Transport)
    (t N : Int) (tok : Option TokenData) (d : RespBody)
    (hd : tr (tokenRequest c) = .ok d) (hN : d.expires_in = some N) :
    getToken c tr t tok =
      (.ok (mkToken t d), some (mkToken t d), [tokenRequest c]) ∧
    (mkToken t d).expires_at = .int (t + (N - 60) * 1000) ∧
    tokenNeedsFetch (t + (N - 61) * 1000) (some (mkToken t d)) = false ∧
    tokenNeedsFetch (t + (N - 59) * 1000) (some (mkToken t d)) = true := by
  have hexp : (mkToken t d).expires_at = .int (t + (N - 60) * 1000) := by
    simp [mkToken, hN, jsOfOpt, JsNum.add, JsNum.sub, JsNum.mul]
  refine ⟨by simp [getToken, hd], hexp, ?_, ?_⟩
  · simp only [tokenNeedsFetch, hexp, JsNum.ge]
    simp only [decide_eq_false_iff_not, ge_iff_le, not_le]
    omega
  · simp only [tokenNeedsFetch, hexp, JsNum.ge]
    simp only [decide_eq_true_eq, ge_iff_le]
    omega

theorem token_expiry_math_witness :
    getToken c0 tr3600 0 none =
      (.ok (mkToken 0 (RespBody.mk (some "T1") (some 3600))),
       some (mkToken 0 (RespBody.mk (some "T1") (some 3600))),
       [tokenRequest c0]) ∧
    (mkToken 0 (RespBody.mk (some "T1") (some 3600))).expires_at =
      .int (0 + (3600 - 60) * 1000) ∧
    tokenNeedsFetch (0 + (3600 - 61) * 1000)
      (some (mkToken 0 (RespBody.mk (some "T1") (some 3600)))) = false ∧
    tokenNeedsFetch (0 + (3600 - 59) * 1000)
      (some (mkToken 0 (RespBody.mk (some "T1") (some 3600)))) = true :=
  token_expiry_math c0 tr3600 0 3600 none _ rfl rfl

/-- C4: for every client state (absent, valid or expired token), a failing
token fetch leaves the previously held token — expiry included —
completely unchanged and the error propagates; the authorized call that
triggered the fetch fails with that same error after issuing only the
single token request (no retry, no main request). -/
theorem getToken_failure (c : SendPulseClient) (tr : Transport)
    (now : Int) (tok : Option TokenData) (path method : String)
    (data : Payload) (e : JsError)
    (he : tr (tokenRequest c) = .error e) :
    getToken c tr now tok = (.error e, tok, [tokenRequest c]) ∧
    (tokenNeedsFetch now tok = true →
      sendRequest c tr now tok path method data true =
        (.error e, tok, [tokenRequest c])) :=
  ⟨by simp [getToken, he],
   fun h => sendRequest_fetch_error c tr now tok path method data e h he⟩

theorem getToken_failure_witness :
    getToken c0 trFail 0 none =
      (.error (.apiRequestError 500 "boom"), none, [tokenRequest c0]) ∧
    sendRequest c0 trFail 0 none "addressbooks" "GET" [] true =
      (.error (.apiRequestError 500 "boom"), none, [tokenRequest c0]) :=
  ⟨(getToken_failure c0 trFail 0 none "addressbooks" "GET" []
      (.apiRequestError 500 "boom") rfl).1,
   (getToken_failure c0 trFail 0 none "addressbooks" "GET" []
      (.apiRequestError 500 "boom") rfl).2 rfl⟩

/-- C1 counterexample: when the token endpoint reports `expires_in = 60`
(exactly the safety margin), the freshly fetched token is attached to the
main request although it is already expired at the time of the call: the
stored expiry equals the call time, and the validity check at that very
time deems such a token expired. -/
theorem sendRequest_fresh_token_already_expired :
    sendRequest c0 tr60 0 none "addressbooks" "GET" [] true =
      (.ok (RespBody.mk none none),
       some (TokenData.mk (some "T1") (.int 0)),
       [tokenRequest c0,
        mainRequest c0 "addressbooks" "GET" [] (some "Bearer T1")]) ∧
    tokenNeedsFetch 0 (some (TokenData.mk (some "T1") (.int 0))) = true := by
  exact ⟨rfl, rfl⟩

/-- C1 (amended): assume the spec's own token invariant for the held token
(a held token has a well-defined, non-NaN expiry) and that token-endpoint
responses report `expires_in = N` with `N > 60` (the counterexample
`N = 60` yields a token already expired when presented).  Then every
authorized dispatch call that issues its main HTTP request carries the
header `Authorization: Bearer ` + the currently held token's bearer
string, that token is non-expired at the time of the call, and if before
the call no token was held or the current time was at or past the held
expiry, the token fetch is performed first and the held token is replaced
by the fetched one before the main request is issued. -/
theorem sendRequest_authorized_bearer (c : SendPulseClient) (tr : Transport)
    (now : Int) (tok : Option TokenData) (path method : String)
    (data : Payload)
    (hwf : ∀ t, tok = some t → ∃ e : Int, t.expires_at = .int e)
    (hfetch : ∀ d, tr (tokenRequest c) = .ok d →
        ∃ n, d.expires_in = some n ∧ 60 < n) :
    ∀ r ∈ (sendRequest c tr now tok path method data true).2.2,
      r.path ≠ "oauth/access_token" →
      ∃ t, (sendRequest c tr now tok path method data true).2.1 = some t ∧
        ("Authorization", "Bearer " ++ jsStr t.access_token) ∈ r.headers ∧
        (JsNum.int now).lt t.expires_at = true ∧
        (tokenNeedsFetch now tok = true →
          ∃ d, tr (tokenRequest c) = .ok d ∧ t = mkToken now d ∧
            (sendRequest c tr now tok path method data true).2.2 =
              [tokenRequest c,
               mainRequest c path method data
                 (some ("Bearer " ++ jsStr t.access_token))]) := by
  intro r hr hp
  cases h : tokenNeedsFetch now tok with
  | false =>
    cases tok with
    | none => simp [tokenNeedsFetch] at h
    | some t =>
      rw [sendRequest_validToken c tr now t path method data h] at hr ⊢
      simp only [List.mem_singleton] at hr
      subst hr
      refine ⟨t, rfl, by simp [mainRequest], ?_, ?_⟩
      · obtain ⟨e, he⟩ := hwf t rfl
        rw [he]
        simp only [tokenNeedsFetch, he, JsNum.ge, decide_eq_false_iff_not,
          ge_iff_le, not_le] at h
        simp only [JsNum.lt, decide_eq_true_eq]
        exact h
      · intro h2
        exact Bool.noConfusion h2
  | true =>
    rcases he : tr (tokenRequest c) with e | d
    · rw [sendRequest_fetch_error c tr now tok path method data e h he] at hr
      simp only [List.mem_singleton] at hr
      subst hr
      exact absurd (tokenRequest_path c) hp
    · rw [sendRequest_fetch_ok c tr now tok path method data d h he] at hr ⊢
      rcases List.mem_cons.mp hr with h1 | h1
      · subst h1
        exact absurd (tokenRequest_path c) hp
      · simp only [List.mem_singleton] at h1
        subst h1
        refine ⟨mkToken now d, rfl, by simp [mainRequest], ?_,
          fun _ => ⟨d, rfl, rfl, rfl⟩⟩
        obtain ⟨n, hn, h60⟩ := hfetch d he
        simp only [mkToken, hn, jsOfOpt, JsNum.sub, JsNum.mul, JsNum.add,
          JsNum.lt, decide_eq_true_eq]
        omega

theorem sendRequest_authorized_bearer_witness :
    (sendRequest c0 tr3600 0 none "addressbooks" "GET" [] true).2.1 =
      some (mkToken 0 (RespBody.mk (some "T1") (some 3600))) ∧
    ("Authorization", "Bearer " ++
        jsStr (mkToken 0 (RespBody.mk (some "T1") (some 3600))).access_token) ∈
      (mainRequest c0 "addressbooks" "GET" [] (some "Bearer T1")).headers ∧
    (JsNum.int 0).lt
      (mkToken 0 (RespBody.mk (some "T1") (some 3600))).expires_at = true := by
  obtain ⟨t, h1, h2, h3, -⟩ :=
    sendRequest_authorized_bearer c0 tr3600 0 none "addressbooks" "GET" []
      (fun t ht => by cases ht)
      (fun d hd => by
        rw [show tr3600 (tokenRequest c0) =
            Except.ok (RespBody.mk (some "T1") (some 3600)) from rfl] at hd
        injection hd with h
        subst h
        exact ⟨3600, rfl, by norm_num⟩)
      (mainRequest c0 "addressbooks" "GET" [] (some "Bearer T1"))
      (by decide) (by decide)
  have ht : t = mkToken 0 (RespBody.mk (some "T1") (some 3600)) := by
    have hcomp : (sendRequest c0 tr3600 0 none "addressbooks" "GET" [] true).2.1 =
        some (mkToken 0 (RespBody.mk (some "T1") (some 3600))) := by decide
    rw [hcomp] at h1
    exact (Option.some.inj h1).symm
  subst ht
  exact ⟨h1, h2, h3⟩

/-- C3: starting from a fresh client (no token), a sequence of sequential
authorized calls — none addressed to the token endpoint, every later call
issued while the current time is still before the stored expiry instant —
performs exactly one token fetch: the trace is the token request, then the
first call's authorized request, then the remaining authorized requests,
and its fetch count is 1. -/
theorem runCalls_single_fetch (c : SendPulseClient) (tr : Transport)
    (call1 : AuthCall) (rest : List AuthCall) (d : RespBody) (N : Int)
    (hd : tr (tokenRequest c) = .ok d) (hN : d.expires_in = some N)
    (hpaths : ∀ call ∈ call1 :: rest, call.path ≠ "oauth/access_token")
    (hrest : ∀ call ∈ rest, call.time < call1.time + (N - 60) * 1000) :
    runCalls c tr none (call1 :: rest) =
      (some (mkToken call1.time d),
       tokenRequest c ::
         mainRequest c call1.path call1.method call1.data
           (some ("Bearer " ++ jsStr d.access_token)) ::
         rest.map (fun call =>
           mainRequest c call.path call.method call.data
             (some ("Bearer " ++ jsStr d.access_token)))) ∧
    fetchCount (runCalls c tr none (call1 :: rest)).2 = 1 := by
  have hneed : tokenNeedsFetch call1.time (none : Option TokenData) = true := rfl
  have hexp : (mkToken call1.time d).expires_at =
      .int (call1.time + (N - 60) * 1000) := by
    simp [mkToken, hN, jsOfOpt, JsNum.add, JsNum.sub, JsNum.mul]
  have hvalid : ∀ call ∈ rest,
      tokenNeedsFetch call.time (some (mkToken call1.time d)) = false := by
    intro call hc
    simp only [tokenNeedsFetch, hexp, JsNum.ge, decide_eq_false_iff_not,
      ge_iff_le, not_le]
    exact hrest call hc
  have htrace : runCalls c tr none (call1 :: rest) =
      (some (mkToken call1.time d),
       tokenRequest c ::
         mainRequest c call1.path call1.method call1.data
           (some ("Bearer " ++ jsStr d.access_token)) ::
         rest.map (fun call =>
           mainRequest c call.path call.method call.data
             (some ("Bearer " ++ jsStr d.access_token)))) := by
    have hstep := sendRequest_fetch_ok c tr call1.time none call1.path
      call1.method call1.data d hneed hd
    have hrest2 := runCalls_validToken c tr (mkToken call1.time d) rest hvalid
    simp only [runCalls, hstep, hrest2, mkToken_access_token,
      List.cons_append, List.nil_append]
  refine ⟨htrace, ?_⟩
  rw [htrace]
  have hp1 : ¬ ((mainRequest c call1.path call1.method call1.data
      (some ("Bearer " ++ jsStr d.access_token))).path = "oauth/access_token") :=
    hpaths call1 (List.mem_cons_self _ _)
  have hmap : (rest.map fun call => mainRequest c call.path call.method
      call.data (some ("Bearer " ++ jsStr d.access_token))).filter
        (fun r => r.path = "oauth/access_token") = [] := by
    rw [List.filter_eq_nil_iff]
    intro r hr
    obtain ⟨call, hcall, rfl⟩ := List.mem_map.mp hr
    simpa using hpaths call (List.mem_cons_of_mem _ hcall)
  simp [fetchCount, List.filter_cons, hp1, hmap, tokenRequest_path]

theorem runCalls_single_fetch_witness :
    runCalls c0 tr3600 none
        [AuthCall.mk 0 "addressbooks" "GET" [],
         AuthCall.mk 1000000 "addressbooks" "GET" []] =
      (some (mkToken 0 (RespBody.mk (some "T1") (some 3600))),
       tokenRequest c0 ::
         mainRequest c0 "addressbooks" "GET" []
           (some ("Bearer " ++
             jsStr (RespBody.mk (some "T1") (some 3600)).access_token)) ::
         List.map (fun call => mainRequest c0 call.path call.method call.data
             (some ("Bearer " ++
               jsStr (RespBody.mk (some "T1") (some 3600)).access_token)))
           [AuthCall.mk 1000000 "addressbooks" "GET" []]) ∧
    fetchCount (runCalls c0 tr3600 none
        [AuthCall.mk 0 "addressbooks" "GET" [],
         AuthCall.mk 1000000 "addressbooks" "GET" []]).2 = 1 :=
  runCalls_single_fetch c0 tr3600 (AuthCall.mk 0 "addressbooks" "GET" [])
    [AuthCall.mk 1000000 "addressbooks" "GET" []]
    (RespBody.mk (some "T1") (some 3600)) 3600 rfl rfl
    (by decide) (by decide)

/-- C6: a dispatch call with `requiresAuth = false` never triggers a token
fetch and leaves the token state unchanged, whatever that state is: it
issues exactly the caller's own request, whose headers carry no
Authorization entry. -/
theorem sendRequest_noauth (c : SendPulseClient) (tr : Transport)
    (now : Int) (tok : Option TokenData) (path method : String)
    (data : Payload) :
    sendRequest c tr now tok path method data false =
      (tr (mainRequest c path method data none), tok,
       [mainRequest c path method data none]) ∧
    "Authorization" ∉
      (mainRequest c path method data none).headers.map Prod.fst := by
  refine ⟨rfl, ?_⟩
  simp [mainRequest, baseHeaders]

/-- C5 counterexample: in the TypeScript variant, `createAddressBook('')`
does not fail — it dispatches a `POST addressbooks` network request with
payload `{ name: '' }` (here under a held valid token). -/
theorem createAddressBook_empty_string_dispatches :
    createAddressBook c0 tr3600 0
        (some (TokenData.mk (some "T1") (.int 100))) (some "") =
      (.ok (RespBody.mk none none),
       some (TokenData.mk (some "T1") (.int 100)),
       [mainRequest c0 "addressbooks" "POST" [("name", "")]
         (some "Bearer T1")]) := by
  exact rfl

/-- C5 (amended): an `undefined` required argument fails with
`Error('Empty book name')` and zero network calls in both variants, and
the legacy variant also rejects the empty string; but the TypeScript
variant's `createAddressBook('')` performs no emptiness validation — it
forwards `{ name: '' }` to dispatch like any other string. -/
theorem createAddressBook_validation (c : SendPulseClient) (tr : Transport)
    (now : Int) (tok : Option TokenData) (TOKEN : String) (tr2 : Transport) :
    createAddressBook c tr now tok none =
      (.error (.error "Empty book name"), tok, []) ∧
    Legacy.createAddressBook TOKEN tr2 none =
      (.error (.error "Empty book name"), []) ∧
    Legacy.createAddressBook TOKEN tr2 (some "") =
      (.error (.error "Empty book name"), []) ∧
    ∀ name, createAddressBook c tr now tok (some name) =
      sendRequest c tr now tok "addressbooks" "POST" [("name", name)] true :=
  ⟨rfl, rfl, rfl, fun _ => rfl⟩

/-- C7: for a non-empty array argument, `smsAddPhones` forwards to
dispatch a payload whose `phones` field is the JSON encoding of exactly
that array (order preserved), and every non-token request the call issues
carries that field. -/
theorem smsAddPhones_payload (c : SendPulseClient) (tr : Transport)
    (now : Int) (tok : Option TokenData) (xs : List String)
    (comment : Option String) (h : xs ≠ []) :
    smsAddPhones c tr now tok (.arr xs) comment =
      sendRequest c tr now tok "sms/black_list/add" "POST"
        (("phones", jsonStringifyStrings xs) ::
          (match comment with
           | some cm => [("comment", cm)]
           | none => [])) true ∧
    ∀ r ∈ (smsAddPhones c tr now tok (.arr xs) comment).2.2,
      r.path ≠ "oauth/access_token" →
        r.data.lookup "phones" = some (jsonStringifyStrings xs) := by
  have hlen : xs.length ≠ 0 := by simpa [List.length_eq_zero] using h
  have h1 : smsAddPhones c tr now tok (.arr xs) comment =
      sendRequest c tr now tok "sms/black_list/add" "POST"
        (("phones", jsonStringifyStrings xs) ::
          (match comment with
           | some cm => [("comment", cm)]
           | none => [])) true := by
    simp [smsAddPhones, hlen]
  refine ⟨h1, ?_⟩
  intro r hr hp
  rw [h1] at hr
  have hdata := (sendRequest_main_of_mem c tr now tok "sms/black_list/add"
    "POST" _ r hr hp).1
  rw [hdata]
  simp [List.lookup]

theorem smsAddPhones_payload_witness :
    smsAddPhones c0 tr3600 0 none (.arr ["+375291112233", "+375291112244"])
        none =
      sendRequest c0 tr3600 0 none "sms/black_list/add" "POST"
        [("phones", jsonStringifyStrings ["+375291112233", "+375291112244"])]
        true :=
  (smsAddPhones_payload c0 tr3600 0 none ["+375291112233", "+375291112244"]
    none (by decide)).1

/-- C8: both raw-dispatch escape hatches reject the verb `"HEAD"` with an
unknown-method error before any network call and forward `"PATCH"` to
dispatch; a verb is accepted exactly when it is one of POST, GET, DELETE,
PUT, PATCH, every accepted verb is forwarded, and every other verb is
rejected without a network call. -/
theorem raw_dispatch_methods (c : SendPulseClient) (tr : Transport)
    (now : Int) (tok : Option TokenData) (path : String) (data : Payload)
    (TOKEN : String) (tr2 : Transport) :
    sendRequestRaw c tr now tok path "HEAD" data =
      (.error (.error "Unknown method: HEAD"), tok, []) ∧
    Legacy.sendRawRequest TOKEN tr2 path "HEAD" data =
      (.error (.error "Unknown method: HEAD"), []) ∧
    sendRequestRaw c tr now tok path "PATCH" data =
      sendRequest c tr now tok path "PATCH" data true ∧
    Legacy.sendRawRequest TOKEN tr2 path "PATCH" data =
      Legacy.sendRequest TOKEN tr2 path "PATCH" data true ∧
    (∀ method, allowedMethods.contains method = true ↔
      (method = "POST" ∨ method = "GET" ∨ method = "DELETE" ∨
       method = "PUT" ∨ method = "PATCH")) ∧
    (∀ method, allowedMethods.contains method = true →
      sendRequestRaw c tr now tok path method data =
        sendRequest c tr now tok path method data true ∧
      Legacy.sendRawRequest TOKEN tr2 path method data =
        Legacy.sendRequest TOKEN tr2 path method data true) ∧
    (∀ method, allowedMethods.contains method = false →
      sendRequestRaw c tr now tok path method data =
        (.error (.error ("Unknown method: " ++ method)), tok, []) ∧
      Legacy.sendRawRequest TOKEN tr2 path method data =
        (.error (.error ("Unknown method: " ++ method)), [])) := by
  refine ⟨rfl, rfl, rfl, rfl, ?_, ?_, ?_⟩
  · intro method
    simp [allowedMethods, List.contains_cons, Bool.or_eq_true, beq_iff_eq]
  · intro method hm
    have hmem : method ∈ allowedMethods := by simpa using hm
    exact ⟨by simp [sendRequestRaw, hmem],
      by simp [Legacy.sendRawRequest, hmem]⟩
  · intro method hm
    have hmem : method ∉ allowedMethods := by simpa using hm
    exact ⟨by simp [sendRequestRaw, hmem],
      by simp [Legacy.sendRawRequest, hmem]⟩

theorem raw_dispatch_methods_witness :
    sendRequestRaw c0 tr3600 0 none "some/path" "PUT" [] =
      sendRequest c0 tr3600 0 none "some/path" "PUT" [] true ∧
    sendRequestRaw c0 tr3600 0 none "some/path" "OPTIONS" [] =
      (.error (.error "Unknown method: OPTIONS"), none, []) :=
  ⟨((raw_dispatch_methods c0 tr3600 0 none "some/path" [] "T"
      tr3600).2.2.2.2.2.1 "PUT" (by decide)).1,
   ((raw_dispatch_methods c0 tr3600 0 none "some/path" [] "T"
      tr3600).2.2.2.2.2.2 "OPTIONS" (by decide)).1⟩

/-- C9: at the failing input — a token-endpoint response omitting
`expires_in` — the fetch does NOT fail: the authorized call succeeds, a
token with `NaN` expiry is stored, and since `now >= NaN` is always false
that token is presented as valid on arbitrarily late authorized calls
without any refetch. -/
theorem missing_expires_in_token_kept :
    sendRequest c0 trNoExp 0 none "addressbooks" "GET" [] true =
      (.ok (RespBody.mk none none),
       some (TokenData.mk (some "T9") .nan),
       [tokenRequest c0,
        mainRequest c0 "addressbooks" "GET" [] (some "Bearer T9")]) ∧
    tokenNeedsFetch 1000000000000 (some (TokenData.mk (some "T9") .nan)) =
      false ∧
    sendRequest c0 trNoExp 1000000000000
        (some (TokenData.mk (some "T9") .nan)) "addressbooks" "GET" [] true =
      (.ok (RespBody.mk none none),
       some (TokenData.mk (some "T9") .nan),
       [mainRequest c0 "addressbooks" "GET" [] (some "Bearer T9")]) := by
  exact ⟨rfl, rfl, rfl⟩

/-- C10: legacy `getBalance` with no currency argument throws a
`TypeError` (from `undefined.toUpperCase()`) before any network call;
with a truthy currency string it sends the request to the plain `balance`
path, the currency argument never reaching the request path. -/
theorem getBalance_currency (TOKEN : String) (tr : Transport) :
    Legacy.getBalance TOKEN tr none =
      (.error (.typeError
        "Cannot read properties of undefined (reading toUpperCase)"), []) ∧
    ∀ s : String, s ≠ "" →
      Legacy.getBalance TOKEN tr (some s) =
        Legacy.sendRequest TOKEN tr "balance" "GET" [] true ∧
      ∀ r ∈ (Legacy.getBalance TOKEN tr (some s)).2, r.path = "balance" := by
  refine ⟨rfl, ?_⟩
  intro s hs
  have ht : jsTruthy (some s) = true := by simp [jsTruthy, hs]
  have h1 : Legacy.getBalance TOKEN tr (some s) =
      Legacy.sendRequest TOKEN tr "balance" "GET" [] true := by
    simp [Legacy.getBalance, ht]
  refine ⟨h1, ?_⟩
  rw [h1]
  intro r hr
  simp only [Legacy.sendRequest, List.mem_singleton] at hr
  subst hr
  rfl

theorem getBalance_currency_witness :
    Legacy.getBalance "T" tr3600 none =
      (.error (.typeError
        "Cannot read properties of undefined (reading toUpperCase)"), []) ∧
    Legacy.getBalance "T" tr3600 (some "usd") =
      Legacy.sendRequest "T" tr3600 "balance" "GET" [] true :=
  ⟨(getBalance_currency "T" tr3600).1,
   ((getBalance_currency "T" tr3600).2 "usd" (by decide)).1⟩

end SendPulse
